import Mathlib

/-!
Verification of the call-escalation and media-streaming subsystem of the
VibeGo auto-responder.  Each section shallowly embeds one component of the
TypeScript source (`src/auto-responder/...`) as executable Lean definitions
and proves the spec's claims about it.

Conventions used throughout:
* JavaScript numbers that the source only ever uses as integers are
  modelled as `Int` (or `Nat` where the source value is provably
  non-negative); 32-bit bitwise coercions are made explicit.
* `Buffer`s of 16-bit little-endian PCM samples are modelled as
  `List Int`, one element per decoded sample; byte buffers as `List Nat`.
* Platform primitives (RegExp tests, `JSON.parse`, `Intl` time-zone
  formatting, Ed25519 verification, the provider SDKs) are parameters of
  the embedding; everything else is translated from the source.
-/

/-! ## Codec: mu-law companding (tts-openai.ts, pcmToMuLawSample / pcmToMuLaw) -/

/-- JavaScript `y & 0x80` where `y` may be negative: the operand is coerced
to 32-bit two's complement before masking. -/
def js_and_0x80 (y : Int) : Nat :=
  (y % 2 ^ 32).toNat &&& 0x80

/-- JavaScript `(~v) & 0xff` for an integer `v`: bitwise complement in
two's complement (`~v = -(v+1)`) followed by masking to the low byte. -/
def jsBitNotAnd0xff (v : Nat) : Nat :=
  ((-((v : Int) + 1)) % 256).toNat

/-- The exponent-search loop of `pcmToMuLawSample`:
`for (let expMask = 0x4000; (pcm & expMask) === 0 && exponent > 0; exponent--) expMask >>= 1;`
First argument is the biased magnitude, then the current exponent
(counting down from 7), then the current mask. -/
def muLawExpLoop (p : Nat) : Nat → Nat → Nat
  | 0, _ => 0
  | e + 1, mask => if p &&& mask ≠ 0 then e + 1 else muLawExpLoop p e (mask >>> 1)

/-- `pcmToMuLawSample` from `tts-openai.ts`: encode one 16-bit linear PCM
sample to a mu-law byte.  `pcm >> 8 & 0x80` extracts the sign bit, the
magnitude is clipped to 32635, biased by 0x84, the exponent found by the
mask loop, the 4-bit mantissa extracted, and the assembled byte inverted. -/
def pcmToMuLawSample (pcm : Int) : Nat :=
  let sign := js_and_0x80 (Int.fdiv pcm 256)
  let pcm1 := if sign ≠ 0 then -pcm else pcm
  let pcm2 := if pcm1 > 32635 then 32635 else pcm1
  let pcm3 := pcm2 + 0x84
  let p := pcm3.toNat
  let exponent := muLawExpLoop p 7 0x4000
  let mantissa := (p >>> (exponent + 3)) &&& 0x0f
  jsBitNotAnd0xff (sign ||| (exponent <<< 4) ||| mantissa)

/-- `pcmToMuLaw` from `tts-openai.ts`: encode every decoded 16-bit sample
of the buffer to one mu-law byte. -/
def pcmToMuLaw (pcmData : List Int) : List Nat :=
  pcmData.map pcmToMuLawSample

/-- Modelled from the spec's description of the standard mu-law encode, for
comparison with `pcmToMuLawSample`: take sign and magnitude, clip the
magnitude to 32635, add the bias 0x84, take the exponent from the highest
set bit (`Nat.log2`), extract a 4-bit mantissa, and invert all bits of
`sign|exponent|mantissa`. -/
def muLawEncodeSpec (pcm : Int) : Nat :=
  let sign : Nat := if pcm < 0 then 0x80 else 0
  let mag : Nat := min pcm.natAbs 32635
  let biased := mag + 0x84
  let exponent := Nat.log2 biased - 7
  let mantissa := (biased >>> (exponent + 3)) &&& 0x0f
  (sign ||| (exponent <<< 4) ||| mantissa) ^^^ 0xff

/-! ## Codec: 24 kHz → 8 kHz decimation (tts-openai.ts, resample24kTo8k) -/

/-- JavaScript `Math.round(s / 3)` for an integer sum `s`:
`Math.round` is floor of `x + 1/2`, so the result is `⌊(2s+3)/6⌋`. -/
def jsRoundDiv3 (s : Int) : Int :=
  Int.fdiv (2 * s + 3) 6

/-- `resample24kTo8k` from `tts-openai.ts`, at the level of decoded 16-bit
samples: every 3 consecutive input samples are averaged into one output
sample; a group member past the end of the buffer falls back to the
previous member. -/
def resample24kTo8k (pcmData : List Int) : List Int :=
  let inputSamples := pcmData.length
  let outputSamples := inputSamples / 3
  (List.range outputSamples).map (fun i =>
    let baseIdx := 3 * i
    let s0 := pcmData.getD baseIdx 0
    let s1 := if baseIdx + 1 < inputSamples then pcmData.getD (baseIdx + 1) 0 else s0
    let s2 := if baseIdx + 2 < inputSamples then pcmData.getD (baseIdx + 2) 0 else s1
    jsRoundDiv3 (s0 + s1 + s2))

/-- The downsample-then-compand pipeline used by `generateTTSAudio` and
`sendAudio`: resample the wideband PCM to 8 kHz, then mu-law encode. -/
def resampleThenCompand (pcmData : List Int) : List Nat :=
  pcmToMuLaw (resample24kTo8k pcmData)

example : pcmToMuLawSample 0 = 0xff := by decide
example : pcmToMuLawSample 32767 = 0x80 := by decide
example : pcmToMuLawSample (-32768) = 0x00 := by decide
example : muLawEncodeSpec 0 = 0xff := by
  norm_num [muLawEncodeSpec, Nat.log2]
  decide
example : resample24kTo8k [3, 4, 5, 100] = [4] := by decide

/-! ### Lemmas for the mu-law encoder -/

lemma and_mask_eq_zero {p j mask : Nat} (hm : mask = 2 ^ j) (h : p < 2 ^ j) :
    p &&& mask = 0 := by
  subst hm
  rw [Nat.and_two_pow, Nat.testBit_lt_two_pow h]
  simp

lemma and_mask_eq_self {p k mask : Nat} (hm : mask = 2 ^ k) (h1 : 2 ^ k ≤ p)
    (h2 : p < 2 ^ (k + 1)) : p &&& mask = mask := by
  subst hm
  have hdiv : p / 2 ^ k = 1 := by
    apply Nat.div_eq_of_lt_le
    · simpa using h1
    · have h2' : p < 2 ^ k * 2 := by rw [← Nat.pow_succ]; exact h2
      omega
  have hb : p.testBit k = true := by
    rw [Nat.testBit_to_div_mod, hdiv]
    decide
  rw [Nat.and_two_pow, hb]
  simp

lemma muLawExpLoop_interval (k : Nat) (hk1 : 7 ≤ k) (hk2 : k ≤ 14) (p : Nat)
    (h1 : 2 ^ k ≤ p) (h2 : p < 2 ^ (k + 1)) :
    muLawExpLoop p 7 0x4000 = k - 7 := by
  interval_cases k <;> norm_num at h1 h2
  · -- k = 7: bits 8..14 clear, result 0
    have e14 : p &&& 16384 = 0 := and_mask_eq_zero (j := 14) (by norm_num) (by norm_num; omega)
    have e13 : p &&& 8192 = 0 := and_mask_eq_zero (j := 13) (by norm_num) (by norm_num; omega)
    have e12 : p &&& 4096 = 0 := and_mask_eq_zero (j := 12) (by norm_num) (by norm_num; omega)
    have e11 : p &&& 2048 = 0 := and_mask_eq_zero (j := 11) (by norm_num) (by norm_num; omega)
    have e10 : p &&& 1024 = 0 := and_mask_eq_zero (j := 10) (by norm_num) (by norm_num; omega)
    have e9 : p &&& 512 = 0 := and_mask_eq_zero (j := 9) (by norm_num) (by norm_num; omega)
    have e8 : p &&& 256 = 0 := and_mask_eq_zero (j := 8) (by norm_num) (by norm_num; omega)
    simp [muLawExpLoop, e14, e13, e12, e11, e10, e9, e8]
  · have e14 : p &&& 16384 = 0 := and_mask_eq_zero (j := 14) (by norm_num) (by norm_num; omega)
    have e13 : p &&& 8192 = 0 := and_mask_eq_zero (j := 13) (by norm_num) (by norm_num; omega)
    have e12 : p &&& 4096 = 0 := and_mask_eq_zero (j := 12) (by norm_num) (by norm_num; omega)
    have e11 : p &&& 2048 = 0 := and_mask_eq_zero (j := 11) (by norm_num) (by norm_num; omega)
    have e10 : p &&& 1024 = 0 := and_mask_eq_zero (j := 10) (by norm_num) (by norm_num; omega)
    have e9 : p &&& 512 = 0 := and_mask_eq_zero (j := 9) (by norm_num) (by norm_num; omega)
    have e8 : p &&& 256 = 256 := and_mask_eq_self (k := 8) (by norm_num) (by norm_num; omega) (by norm_num; omega)
    simp [muLawExpLoop, e14, e13, e12, e11, e10, e9, e8]
  · have e14 : p &&& 16384 = 0 := and_mask_eq_zero (j := 14) (by norm_num) (by norm_num; omega)
    have e13 : p &&& 8192 = 0 := and_mask_eq_zero (j := 13) (by norm_num) (by norm_num; omega)
    have e12 : p &&& 4096 = 0 := and_mask_eq_zero (j := 12) (by norm_num) (by norm_num; omega)
    have e11 : p &&& 2048 = 0 := and_mask_eq_zero (j := 11) (by norm_num) (by norm_num; omega)
    have e10 : p &&& 1024 = 0 := and_mask_eq_zero (j := 10) (by norm_num) (by norm_num; omega)
    have e9 : p &&& 512 = 512 := and_mask_eq_self (k := 9) (by norm_num) (by norm_num; omega) (by norm_num; omega)
    simp [muLawExpLoop, e14, e13, e12, e11, e10, e9]
  · have e14 : p &&& 16384 = 0 := and_mask_eq_zero (j := 14) (by norm_num) (by norm_num; omega)
    have e13 : p &&& 8192 = 0 := and_mask_eq_zero (j := 13) (by norm_num) (by norm_num; omega)
    have e12 : p &&& 4096 = 0 := and_mask_eq_zero (j := 12) (by norm_num) (by norm_num; omega)
    have e11 : p &&& 2048 = 0 := and_mask_eq_zero (j := 11) (by norm_num) (by norm_num; omega)
    have e10 : p &&& 1024 = 1024 := and_mask_eq_self (k := 10) (by norm_num) (by norm_num; omega) (by norm_num; omega)
    simp [muLawExpLoop, e14, e13, e12, e11, e10]
  · have e14 : p &&& 16384 = 0 := and_mask_eq_zero (j := 14) (by norm_num) (by norm_num; omega)
    have e13 : p &&& 8192 = 0 := and_mask_eq_zero (j := 13) (by norm_num) (by norm_num; omega)
    have e12 : p &&& 4096 = 0 := and_mask_eq_zero (j := 12) (by norm_num) (by norm_num; omega)
    have e11 : p &&& 2048 = 2048 := and_mask_eq_self (k := 11) (by norm_num) (by norm_num; omega) (by norm_num; omega)
    simp [muLawExpLoop, e14, e13, e12, e11]
  · have e14 : p &&& 16384 = 0 := and_mask_eq_zero (j := 14) (by norm_num) (by norm_num; omega)
    have e13 : p &&& 8192 = 0 := and_mask_eq_zero (j := 13) (by norm_num) (by norm_num; omega)
    have e12 : p &&& 4096 = 4096 := and_mask_eq_self (k := 12) (by norm_num) (by norm_num; omega) (by norm_num; omega)
    simp [muLawExpLoop, e14, e13, e12]
  · have e14 : p &&& 16384 = 0 := and_mask_eq_zero (j := 14) (by norm_num) (by norm_num; omega)
    have e13 : p &&& 8192 = 8192 := and_mask_eq_self (k := 13) (by norm_num) (by norm_num; omega) (by norm_num; omega)
    simp [muLawExpLoop, e14, e13]
  · have e14 : p &&& 16384 = 16384 := and_mask_eq_self (k := 14) (by norm_num) (by norm_num; omega) (by norm_num; omega)
    simp [muLawExpLoop, e14]

lemma high_sub_and_128 : ∀ t < 128, (4294967295 - t) &&& 128 = 128 := by decide

lemma js_and_0x80_of_small {y : Int} (h0 : 0 ≤ y) (h : y < 128) :
    js_and_0x80 y = 0 := by
  simp only [js_and_0x80]
  have hp : ((2 : Int) ^ 32) = 4294967296 := by norm_num
  rw [hp, Int.emod_eq_of_lt h0 (by omega)]
  exact and_mask_eq_zero (j := 7) (by norm_num) (by omega)

lemma js_and_0x80_of_neg {y : Int} (h0 : -128 ≤ y) (h1 : y < 0) :
    js_and_0x80 y = 128 := by
  simp only [js_and_0x80]
  have hp : ((2 : Int) ^ 32) = 4294967296 := by norm_num
  rw [hp]
  have he : y % 4294967296 = y + 4294967296 := by omega
  rw [he]
  have ht : (y + 4294967296).toNat = 4294967295 - (-1 - y).toNat ∧ (-1 - y).toNat < 128 := by
    omega
  rw [ht.1]
  exact high_sub_and_128 _ ht.2

lemma js_sign_eq (pcm : Int) (h1 : -32768 ≤ pcm) (h2 : pcm ≤ 32767) :
    js_and_0x80 (Int.fdiv pcm 256) = if pcm < 0 then 128 else 0 := by
  rw [Int.fdiv_eq_ediv _ (by norm_num)]
  by_cases hneg : pcm < 0
  · rw [if_pos hneg]
    exact js_and_0x80_of_neg (by omega) (by omega)
  · rw [if_neg hneg]
    exact js_and_0x80_of_small (by omega) (by omega)

set_option maxRecDepth 4000 in
lemma jsBitNotAnd0xff_eq_xor : ∀ v < 256, jsBitNotAnd0xff v = v ^^^ 255 := by decide

lemma encode_core_eq (p : Nat) (hlo : 132 ≤ p) (hhi : p ≤ 32767) (sign : Nat)
    (hsign : sign ≤ 128) :
    jsBitNotAnd0xff (sign ||| (muLawExpLoop p 7 0x4000 <<< 4) |||
        ((p >>> (muLawExpLoop p 7 0x4000 + 3)) &&& 0x0f))
      = (sign ||| ((Nat.log2 p - 7) <<< 4) |||
        ((p >>> ((Nat.log2 p - 7) + 3)) &&& 0x0f)) ^^^ 255 := by
  have hp0 : p ≠ 0 := by omega
  have hb1 : 2 ^ Nat.log2 p ≤ p := (Nat.le_log2 hp0).mp le_rfl
  have hb2 : p < 2 ^ (Nat.log2 p + 1) := (Nat.log2_lt hp0).mp (Nat.lt_succ_self _)
  have hk7 : 7 ≤ Nat.log2 p := (Nat.le_log2 hp0).mpr (by norm_num; omega)
  have hk14 : Nat.log2 p ≤ 14 := by
    have h15 := (Nat.log2_lt hp0).mpr (show p < 2 ^ 15 by norm_num; omega)
    omega
  have hexp := muLawExpLoop_interval (Nat.log2 p) hk7 hk14 p hb1 hb2
  rw [hexp]
  have h256 : (2 : Nat) ^ 8 = 256 := by norm_num
  have hshift : ((Nat.log2 p - 7) <<< 4) < 2 ^ 8 := by
    rw [Nat.shiftLeft_eq]
    have : Nat.log2 p - 7 ≤ 7 := by omega
    have : (Nat.log2 p - 7) * 2 ^ 4 ≤ 7 * 2 ^ 4 := by
      exact Nat.mul_le_mul_right _ this
    omega
  have hmant : ((p >>> ((Nat.log2 p - 7) + 3)) &&& 15) < 2 ^ 8 := by
    have := Nat.and_le_right (n := p >>> ((Nat.log2 p - 7) + 3)) (m := 15)
    omega
  have hv : (sign ||| ((Nat.log2 p - 7) <<< 4) |||
      ((p >>> ((Nat.log2 p - 7) + 3)) &&& 15)) < 2 ^ 8 := by
    apply Nat.or_lt_two_pow _ hmant
    apply Nat.or_lt_two_pow _ hshift
    omega
  exact jsBitNotAnd0xff_eq_xor _ (by omega)

/-- C1: for every 16-bit PCM input sample the companding encoder
`pcmToMuLawSample` performs the standard mu-law encode (sign and magnitude,
clip to 32635, bias 0x84, exponent from the highest set bit, 4-bit
mantissa, all bits inverted, as captured by `muLawEncodeSpec`), and in
particular 0 encodes to 0xFF, 32767 to 0x80 and -32768 to 0x00. -/
theorem pcmToMuLawSample_spec_conformance :
    (∀ pcm : Int, -32768 ≤ pcm → pcm ≤ 32767 →
      pcmToMuLawSample pcm = muLawEncodeSpec pcm)
    ∧ pcmToMuLawSample 0 = 0xff
    ∧ pcmToMuLawSample 32767 = 0x80
    ∧ pcmToMuLawSample (-32768) = 0x00 := by
  refine ⟨?_, by decide, by decide, by decide⟩
  intro pcm h1 h2
  simp only [pcmToMuLawSample, muLawEncodeSpec, js_sign_eq pcm h1 h2]
  by_cases hneg : pcm < 0
  · simp only [if_pos hneg, ne_eq, OfNat.ofNat_ne_zero, not_false_eq_true, if_true]
    have hp : ((if -pcm > 32635 then (32635 : Int) else -pcm) + 132).toNat
        = min pcm.natAbs 32635 + 132 := by
      split_ifs <;> omega
    rw [hp]
    exact encode_core_eq _ (by omega) (by omega) 128 (by norm_num)
  · simp only [if_neg hneg, ne_eq, not_true_eq_false, if_false]
    have hp : ((if pcm > 32635 then (32635 : Int) else pcm) + 132).toNat
        = min pcm.natAbs 32635 + 132 := by
      split_ifs <;> omega
    rw [hp]
    exact encode_core_eq _ (by omega) (by omega) 0 (by norm_num)

/-- Witness for `pcmToMuLawSample_spec_conformance` at the concrete
sample 1234. -/
theorem pcmToMuLawSample_spec_conformance_witness :
    pcmToMuLawSample 1234 = muLawEncodeSpec 1234 :=
  pcmToMuLawSample_spec_conformance.1 1234 (by decide) (by decide)

/-- C7: the downsample-then-compand pipeline emits exactly `⌊n/3⌋`
narrowband bytes for `n` wideband input samples, narrowband sample `i` is
the rounded arithmetic mean of input samples `3i`, `3i+1`, `3i+2` (every
emitted group is full, so the end-of-buffer sample-reuse fallback never
changes a value), and the pipeline is deterministic. -/
theorem resampleThenCompand_length_and_mean (pcmData : List Int) :
    (resampleThenCompand pcmData).length = pcmData.length / 3
    ∧ (∀ i, i < pcmData.length / 3 →
        (resample24kTo8k pcmData).getD i 0 =
          jsRoundDiv3 (pcmData.getD (3 * i) 0 + pcmData.getD (3 * i + 1) 0 +
            pcmData.getD (3 * i + 2) 0))
    ∧ (∀ other : List Int, pcmData = other →
        resampleThenCompand pcmData = resampleThenCompand other) := by
  refine ⟨?_, ?_, ?_⟩
  · simp [resampleThenCompand, pcmToMuLaw, resample24kTo8k]
  · intro i hi
    have h1 : 3 * i + 1 < pcmData.length := by omega
    have h2 : 3 * i + 2 < pcmData.length := by omega
    simp only [resample24kTo8k, List.getD_eq_getElem?_getD, List.getElem?_map,
      List.getElem?_range hi, Option.map_some, Option.getD_some]
    simp [h1, h2]
  · intro other h
    rw [h]

/-- Witness for `resampleThenCompand_length_and_mean` on the concrete
input `[3, 4, 5, 100]`. -/
theorem resampleThenCompand_length_and_mean_witness :
    (resampleThenCompand [3, 4, 5, 100]).length = 1
    ∧ (resample24kTo8k [3, 4, 5, 100]).getD 0 0 = jsRoundDiv3 (3 + 4 + 5) :=
  ⟨(resampleThenCompand_length_and_mean [3, 4, 5, 100]).1,
   (resampleThenCompand_length_and_mean [3, 4, 5, 100]).2.1 0 (by decide)⟩

/-! ## Escalation Evaluator (escalation/config.ts) -/

/-- Escalation trigger configuration (`EscalationTriggers`). -/
structure EscalationTriggers where
  notificationTimeoutSeconds : Int
  alwaysCallPatterns : List String
  escalatePermissions : Bool
  escalateQuestions : Bool
  escalateOnIdle : Bool
  useLlmForEscalation : Bool
  llmEscalationPrompt : Option String

/-- Quiet-hours configuration (`QuietHoursConfig`); the source field `end`
is a Lean keyword, so it is named `stop` here. -/
structure QuietHoursConfig where
  enabled : Bool
  start : String
  stop : String
  timezone : String

/-- Rate-limiting configuration (`RateLimitingConfig`). -/
structure RateLimitingConfig where
  minCallIntervalSeconds : Int
  maxCallsPerHour : Nat

/-- The part of `CallEscalationConfig` read by the evaluator. -/
structure CallEscalationConfig where
  enabled : Bool
  triggers : EscalationTriggers
  quietHours : QuietHoursConfig
  rateLimiting : RateLimitingConfig

/-- The fields of `IncomingEvent` read by the evaluator. -/
structure IncomingEvent where
  event_type : String
  cwd : String

/-- `EscalationContext` from `escalation/config.ts`. -/
structure EscalationContext where
  event : IncomingEvent
  eventContent : String
  notificationSentAt : Option Int
  previousCallAt : Option Int
  callCountLastHour : Nat

/-- `EscalationResult` from `escalation/config.ts`. -/
structure EscalationResult where
  shouldEscalate : Bool
  reason : String
  delayMs : Option Int
  skipNotification : Option Bool
deriving DecidableEq, Repr

/-- The evaluator's own state: its configuration, whether an LLM provider
was supplied, and the predicates of the pre-compiled `RegExp` objects built
in the constructor (`new RegExp(pattern, 'i')` is a platform primitive, so
each compiled pattern is abstracted as its `test` function). -/
structure EscalationEvaluator where
  config : CallEscalationConfig
  hasLlmProvider : Bool
  compiledAlwaysCallPatterns : List (String → Bool)

/-- The result of `JSON.parse` on the brace-delimited candidate, at the two
places `evaluateWithLLM` reads it: whether `parsed.shouldCall === true`,
and `parsed.reason` when it is a string. -/
structure JsonParsed where
  shouldCallIsTrue : Bool
  reason : Option String

/-- Environment of one `evaluate` run: `Date.now()`, the current
minutes-of-day produced by the `Intl` formatter for the configured
timezone, the LLM judge (`llmProvider.analyze`, returning `result.response`
or throwing), and `JSON.parse` restricted to the fields the code reads. -/
structure EvalEnv where
  nowMs : Int
  currentMinutes : Nat
  llmAnalyze : String → Except Unit (Option String)
  jsonParse : String → Option JsonParsed

/-- Split a character list at every occurrence of the separator, the model
of JavaScript `String.prototype.split` with a one-character separator. -/
def splitOnChar (sep : Char) : List Char → List (List Char)
  | [] => [[]]
  | c :: cs =>
    if c == sep then [] :: splitOnChar sep cs
    else
      match splitOnChar sep cs with
      | [] => [[c]]
      | h :: t => (c :: h) :: t

/-- JavaScript `s.split(sep)` for a one-character separator. -/
def jsSplit (s : String) (sep : Char) : List String :=
  (splitOnChar sep s.data).map String.mk

/-- Decimal value of a digit list. -/
def digitsToNat (cs : List Char) : Nat :=
  cs.foldl (fun a c => a * 10 + (c.toNat - 48)) 0

/-- JavaScript `Number(t)` on the pieces of a clock string: the empty
string is 0, a string of decimal digits is its value, and anything else is
NaN (`none`); `Number`'s other shapes (signs, decimals, exponents) do not
occur in clock strings. -/
def jsNumber (t : String) : Option Nat :=
  if t.data = [] then some 0
  else if t.data.all Char.isDigit then some (digitsToNat t.data)
  else none

/-- JavaScript `s.toLowerCase()` for the characters the code compares. -/
def jsToLower (s : String) : String :=
  String.mk (s.data.map Char.toLower)

/-- Parsing of a `"HH:MM"` clock string as done by
`quietHours.start.split(':').map(Number)` with destructuring of the first
two elements; `none` models a NaN component (which makes every comparison
in `isQuietHours` false). -/
def parseClock (s : String) : Option (Nat × Nat) :=
  match jsSplit s ':' with
  | h :: m :: _ =>
    match jsNumber h, jsNumber m with
    | some hv, some mv => some (hv, mv)
    | _, _ => none
  | _ => none

/-- `isQuietHours` from `escalation/config.ts`, as a function of the
current minutes-of-day in the configured timezone (the `Intl` formatter is
a platform primitive).  A window that wraps midnight (`start > end`) is
quiet when `now ≥ start or now < end`; a same-day window is quiet when
`start ≤ now < end`. -/
def isQuietHours (qh : QuietHoursConfig) (currentMinutes : Nat) : Bool :=
  if !qh.enabled then false
  else
    match parseClock qh.start, parseClock qh.stop with
    | some (startHour, startMinute), some (endHour, endMinute) =>
      let startMinutes := startHour * 60 + startMinute
      let endMinutes := endHour * 60 + endMinute
      if startMinutes > endMinutes then
        decide (currentMinutes ≥ startMinutes) || decide (currentMinutes < endMinutes)
      else
        decide (currentMinutes ≥ startMinutes) && decide (currentMinutes < endMinutes)
    | _, _ => false

/-- `isEventTypeEligible` from `escalation/config.ts`. -/
def isEventTypeEligible (cfg : CallEscalationConfig) (eventType : String) : Bool :=
  if eventType = "permission_prompt" then cfg.triggers.escalatePermissions
  else if eventType = "AskUserQuestion" then cfg.triggers.escalateQuestions
  else if eventType = "idle_prompt" then cfg.triggers.escalateOnIdle
  else false

/-- JavaScript `Math.ceil(a / b)` for integers with `b > 0`. -/
def jsCeilDiv (a b : Int) : Int :=
  -(Int.fdiv (-a) b)

/-- Result of `checkRateLimits`. -/
structure RateCheck where
  allowed : Bool
  reason : String
deriving DecidableEq, Repr

/-- `checkRateLimits` from `escalation/config.ts`: the minimum-interval
check runs first (skipped when `previousCallAt` is absent or 0, which is
falsy in JavaScript), then the hourly cap. -/
def checkRateLimits (cfg : CallEscalationConfig) (nowMs : Int)
    (context : EscalationContext) : RateCheck :=
  let intervalBlock : Option RateCheck :=
    match context.previousCallAt with
    | some prev =>
      if prev = 0 then none
      else
        let elapsed := nowMs - prev
        let minInterval := cfg.rateLimiting.minCallIntervalSeconds * 1000
        if elapsed < minInterval then
          let waitSeconds := jsCeilDiv (minInterval - elapsed) 1000
          some ⟨false, "Rate limit: must wait " ++ toString waitSeconds ++ "s before next call"⟩
        else none
    | none => none
  match intervalBlock with
  | some r => r
  | none =>
    if context.callCountLastHour ≥ cfg.rateLimiting.maxCallsPerHour then
      ⟨false, "Rate limit: max " ++ toString cfg.rateLimiting.maxCallsPerHour ++ " calls/hour reached"⟩
    else ⟨true, ""⟩

/-- `matchesAlwaysCallPatterns` from `escalation/config.ts`: some
pre-compiled pattern tests the content. -/
def matchesAlwaysCallPatterns (compiled : List (String → Bool))
    (content : String) : Bool :=
  compiled.any (fun pat => pat content)

/-- Does `needle` occur at the start of `hay`? (helper for the model of
JavaScript `String.prototype.includes`). -/
def startsWithChars : List Char → List Char → Bool
  | [], _ => true
  | _ :: _, [] => false
  | a :: as, b :: bs => a == b && startsWithChars as bs

/-- Does `needle` occur anywhere in `hay`? -/
def hasSubChars (needle : List Char) : List Char → Bool
  | [] => startsWithChars needle []
  | c :: cs => startsWithChars needle (c :: cs) || hasSubChars needle cs

/-- JavaScript `hay.includes(needle)`. -/
def jsIncludes (hay needle : String) : Bool :=
  hasSubChars needle.data hay.data

/-- The opening-brace character. -/
def braceOpen : Char := Char.ofNat 123

/-- The closing-brace character. -/
def braceClose : Char := Char.ofNat 125

/-- The JavaScript greedy regex match `response.match(brace-anything-brace)`
used by `evaluateWithLLM`: the candidate runs from the first opening brace
to the last closing brace, provided the former precedes the latter. -/
def extractBraces (s : String) : Option String :=
  let cs := s.data
  match List.findIdx? (fun c => c == braceOpen) cs,
      List.findIdx? (fun c => c == braceClose) cs.reverse with
  | some i, some r =>
    let j := cs.length - 1 - r
    if i < j then some (String.mk ((cs.drop i).take (j - i + 1))) else none
  | _, _ => none

/-- `cwd.split('/').slice(-2).join('/')`: the project label derived from
the working directory. -/
def jsProjectLabel (cwd : String) : String :=
  let parts := jsSplit cwd '/'
  String.intercalate "/" (parts.drop (parts.length - 2))

/-- The prompt string `evaluateWithLLM` sends to the judge. -/
def llmPromptFor (cfg : CallEscalationConfig) (context : EscalationContext) : String :=
  let prompt := cfg.triggers.llmEscalationPrompt.getD ""
  let project := jsProjectLabel context.event.cwd
  prompt ++ "\n\nEvent type: " ++ context.event.event_type ++ "\nProject: " ++
    project ++ "\nContent: " ++ context.eventContent

/-- `evaluateWithLLM` from `escalation/config.ts`: delegate to the judge;
look for a brace-delimited JSON candidate in the reply; when `JSON.parse`
succeeds use `parsed.shouldCall === true` (and `parsed.reason` when
truthy); when `JSON.parse` throws fall back to keyword scanning of the
lowercased reply; when no candidate exists the decision stays `false`;
when the judge itself throws, decline to escalate. -/
def evaluateWithLLM (ev : EscalationEvaluator) (env : EvalEnv)
    (context : EscalationContext) : EscalationResult :=
  if !ev.hasLlmProvider then
    ⟨false, "LLM provider not available", none, none⟩
  else
    match env.llmAnalyze (llmPromptFor ev.config context) with
    | Except.error _ => ⟨false, "LLM evaluation failed", none, none⟩
    | Except.ok responseOpt =>
      let responseText := jsToLower (responseOpt.getD "")
      let decision :=
        match extractBraces (responseOpt.getD "") with
        | some candidate =>
          match env.jsonParse candidate with
          | some parsed =>
            (parsed.shouldCallIsTrue,
             match parsed.reason with
             | some r => if r = "" then "LLM decision" else r
             | none => "LLM decision")
          | none =>
            (jsIncludes responseText "yes" || jsIncludes responseText "call" ||
             jsIncludes responseText "true", "LLM decision")
        | none => (false, "LLM decision")
      ⟨decision.1, "LLM: " ++ decision.2, none, none⟩

/-- `evaluate` from `escalation/config.ts`: enabled gate, event-type gate,
quiet hours, rate limits, always-call patterns, notification timeout, LLM
arbitration, and the default escalate. -/
def evaluate (ev : EscalationEvaluator) (env : EvalEnv)
    (context : EscalationContext) : EscalationResult :=
  if !ev.config.enabled then
    ⟨false, "Call escalation is disabled", none, none⟩
  else if !(isEventTypeEligible ev.config context.event.event_type) then
    ⟨false, "Event type " ++ context.event.event_type ++ " not configured for escalation",
      none, none⟩
  else if isQuietHours ev.config.quietHours env.currentMinutes then
    ⟨false, "Currently in quiet hours", none, none⟩
  else
    let rateLimitResult := checkRateLimits ev.config env.nowMs context
    if !rateLimitResult.allowed then
      ⟨false, rateLimitResult.reason, none, none⟩
    else if matchesAlwaysCallPatterns ev.compiledAlwaysCallPatterns context.eventContent then
      ⟨true, "Matches always-call pattern", none, some true⟩
    else
      let notifBlock : Option EscalationResult :=
        match context.notificationSentAt with
        | some t =>
          if t = 0 then none
          else
            let elapsed := env.nowMs - t
            let timeoutMs := ev.config.triggers.notificationTimeoutSeconds * 1000
            if elapsed < timeoutMs then
              some ⟨false, "Notification timeout not yet elapsed", some (timeoutMs - elapsed), none⟩
            else none
        | none => none
      match notifBlock with
      | some r => r
      | none =>
        if ev.config.triggers.useLlmForEscalation && ev.hasLlmProvider then
          evaluateWithLLM ev env context
        else
          ⟨true, "Notification timeout elapsed", none, none⟩

/-! ## Call-history pruning (CallService) -/

/-- `pruneCallHistory` from the call service: keep only timestamps newer
than one hour before now. -/
def pruneCallHistory (nowMs : Int) (callHistory : List Int) : List Int :=
  callHistory.filter (fun t => decide (t > nowMs - 60 * 60 * 1000))

/-- `getCallCountLastHour` from the call service: prune the rolling
history, then count.  Returns the count together with the updated stored
history. -/
def getCallCountLastHour (nowMs : Int) (callHistory : List Int) : Nat × List Int :=
  let pruned := pruneCallHistory nowMs callHistory
  (pruned.length, pruned)

/-! ## Theorems for the Escalation Evaluator -/

lemma isQuietHours_eval (start stop tz : String) (sh sm eh em cm : Nat)
    (h1 : parseClock start = some (sh, sm)) (h2 : parseClock stop = some (eh, em)) :
    isQuietHours ⟨true, start, stop, tz⟩ cm =
      if sh * 60 + sm > eh * 60 + em then
        (decide (cm ≥ sh * 60 + sm) || decide (cm < eh * 60 + em))
      else
        (decide (cm ≥ sh * 60 + sm) && decide (cm < eh * 60 + em)) := by
  simp [isQuietHours, h1, h2]

/-- C3: the quiet-hours predicate over minutes-of-day is `now ≥ start or
now < end` for a window that wraps midnight and `start ≤ now < end` for a
same-day window; the reference times of window 22:00-08:00 behave as the
spec lists; and whenever the predicate holds, `evaluate` does not
escalate. -/
theorem isQuietHours_window_correct :
    (∀ (start stop tz : String) (sh sm eh em cm : Nat),
      parseClock start = some (sh, sm) → parseClock stop = some (eh, em) →
      (sh * 60 + sm > eh * 60 + em →
        (isQuietHours ⟨true, start, stop, tz⟩ cm = true ↔
          (sh * 60 + sm ≤ cm ∨ cm < eh * 60 + em)))
      ∧ (sh * 60 + sm ≤ eh * 60 + em →
        (isQuietHours ⟨true, start, stop, tz⟩ cm = true ↔
          (sh * 60 + sm ≤ cm ∧ cm < eh * 60 + em))))
    ∧ (isQuietHours ⟨true, "22:00", "08:00", "America/Los_Angeles"⟩ 1380 = true
      ∧ isQuietHours ⟨true, "22:00", "08:00", "America/Los_Angeles"⟩ 120 = true
      ∧ isQuietHours ⟨true, "22:00", "08:00", "America/Los_Angeles"⟩ 479 = true
      ∧ isQuietHours ⟨true, "22:00", "08:00", "America/Los_Angeles"⟩ 480 = false
      ∧ isQuietHours ⟨true, "22:00", "08:00", "America/Los_Angeles"⟩ 720 = false
      ∧ isQuietHours ⟨true, "22:00", "08:00", "America/Los_Angeles"⟩ 1319 = false)
    ∧ (∀ (ev : EscalationEvaluator) (env : EvalEnv) (context : EscalationContext),
        isQuietHours ev.config.quietHours env.currentMinutes = true →
        (evaluate ev env context).shouldEscalate = false) := by
  refine ⟨?_, by decide, ?_⟩
  · intro start stop tz sh sm eh em cm h1 h2
    rw [isQuietHours_eval start stop tz sh sm eh em cm h1 h2]
    constructor
    · intro hgt
      rw [if_pos hgt]
      simp only [Bool.or_eq_true, decide_eq_true_eq, ge_iff_le]
    · intro hle
      rw [if_neg (by omega)]
      simp only [Bool.and_eq_true, decide_eq_true_eq, ge_iff_le]
  · intro ev env context h
    unfold evaluate
    by_cases h1 : ev.config.enabled = true
    · by_cases h2 : isEventTypeEligible ev.config context.event.event_type = true
      · simp [h1, h2, h]
      · simp only [Bool.not_eq_true] at h2
        simp [h1, h2]
    · simp only [Bool.not_eq_true] at h1
      simp [h1]

/-- Witness for `isQuietHours_window_correct` at the same-day window
09:00-17:00 and the time 10:00. -/
theorem isQuietHours_window_correct_witness :
    isQuietHours ⟨true, "09:00", "17:00", "UTC"⟩ 600 = true :=
  ((isQuietHours_window_correct.1 "09:00" "17:00" "UTC" 9 0 17 0 600
    (by decide) (by decide)).2 (by decide)).mpr (by decide)

/-- C2: with escalation enabled, the event type eligible, quiet hours
inactive and the rate caps not blocking, content matching an always-call
pattern makes `evaluate` return immediate escalation with
`skipNotification = true`, regardless of the notification state; the rate
caps are checked before the pattern, so a rate-blocked matching event
still does not escalate. -/
theorem evaluate_always_call (ev : EscalationEvaluator) (env : EvalEnv)
    (context : EscalationContext)
    (henabled : ev.config.enabled = true)
    (helig : isEventTypeEligible ev.config context.event.event_type = true)
    (hquiet : isQuietHours ev.config.quietHours env.currentMinutes = false)
    (hmatch : matchesAlwaysCallPatterns ev.compiledAlwaysCallPatterns
      context.eventContent = true) :
    ((checkRateLimits ev.config env.nowMs context).allowed = true →
      evaluate ev env context = ⟨true, "Matches always-call pattern", none, some true⟩)
    ∧ ((checkRateLimits ev.config env.nowMs context).allowed = false →
      (evaluate ev env context).shouldEscalate = false
      ∧ (evaluate ev env context).reason =
          (checkRateLimits ev.config env.nowMs context).reason) := by
  constructor
  · intro hrate
    simp [evaluate, henabled, helig, hquiet, hrate, hmatch]
  · intro hrate
    simp [evaluate, henabled, helig, hquiet, hrate, hmatch]

/-- A concrete configuration: enabled, permission prompts eligible,
quiet hours 22:00-08:00, 300 s minimum interval, 3 calls/hour. -/
def sampleConfig : CallEscalationConfig :=
  ⟨true,
   ⟨120, ["delete.*production"], true, false, false, true, none⟩,
   ⟨true, "22:00", "08:00", "America/Los_Angeles"⟩,
   ⟨300, 3⟩⟩

/-- An evaluator over `sampleConfig` whose one compiled pattern tests like
the regex `delete.*production` does on plain-text content. -/
def sampleEvaluator : EscalationEvaluator :=
  ⟨sampleConfig, true,
   [fun s => jsIncludes s "delete" && jsIncludes s "production"]⟩

/-- An environment at noon local time with an erroring judge. -/
def sampleEnv : EvalEnv :=
  ⟨1000000000, 720, fun _ => Except.error (), fun _ => none⟩

/-- The end-to-end scenario context of the spec: a permission prompt whose
content is "delete production database". -/
def sampleContext : EscalationContext :=
  ⟨⟨"permission_prompt", "/home/user/myproj"⟩, "delete production database",
   none, none, 0⟩

/-- Witness for `evaluate_always_call`: the spec's end-to-end scenario. -/
theorem evaluate_always_call_witness :
    evaluate sampleEvaluator sampleEnv sampleContext =
      ⟨true, "Matches always-call pattern", none, some true⟩ :=
  (evaluate_always_call sampleEvaluator sampleEnv sampleContext (by decide)
    (by decide) (by decide) (by decide)).1 (by decide)

/-- C4: a previous call closer than the minimum interval blocks evaluation
with a reason reporting `ceil((minInterval - elapsed)/1000)` seconds of
required wait; a trailing-hour call count at or above the hourly cap
blocks evaluation regardless of the interval check; and
`getCallCountLastHour` prunes the rolling history to the last hour before
counting. -/
theorem checkRateLimits_correct (ev : EscalationEvaluator) (env : EvalEnv)
    (context : EscalationContext)
    (henabled : ev.config.enabled = true)
    (helig : isEventTypeEligible ev.config context.event.event_type = true)
    (hquiet : isQuietHours ev.config.quietHours env.currentMinutes = false) :
    (∀ prev, context.previousCallAt = some prev → prev ≠ 0 →
      env.nowMs - prev < ev.config.rateLimiting.minCallIntervalSeconds * 1000 →
      evaluate ev env context =
        ⟨false,
         "Rate limit: must wait " ++
           toString (jsCeilDiv
             (ev.config.rateLimiting.minCallIntervalSeconds * 1000 -
               (env.nowMs - prev)) 1000) ++ "s before next call",
         none, none⟩)
    ∧ (context.callCountLastHour ≥ ev.config.rateLimiting.maxCallsPerHour →
      (checkRateLimits ev.config env.nowMs context).allowed = false
      ∧ (evaluate ev env context).shouldEscalate = false)
    ∧ (∀ (nowMs : Int) (history : List Int),
      (getCallCountLastHour nowMs history).1 =
        (getCallCountLastHour nowMs history).2.length
      ∧ (∀ t, t ∈ (getCallCountLastHour nowMs history).2 ↔
          (t ∈ history ∧ t > nowMs - 60 * 60 * 1000))) := by
  refine ⟨?_, ?_, ?_⟩
  · intro prev hprev hprev0 hlt
    simp [evaluate, henabled, helig, hquiet, checkRateLimits, hprev, hprev0, hlt]
  · intro hcount
    have hblock : (checkRateLimits ev.config env.nowMs context).allowed = false := by
      unfold checkRateLimits
      rcases hp : context.previousCallAt with _ | prev
      · simp [hcount]
      · by_cases h0 : prev = 0
        · simp [h0, hcount]
        · by_cases hlt : env.nowMs - prev <
            ev.config.rateLimiting.minCallIntervalSeconds * 1000
          · simp [h0, hlt]
          · simp [h0, hlt, hcount]
    refine ⟨hblock, ?_⟩
    simp [evaluate, henabled, helig, hquiet, hblock]
  · intro nowMs history
    refine ⟨rfl, ?_⟩
    intro t
    simp [getCallCountLastHour, pruneCallHistory, List.mem_filter]

/-- A context whose previous call was 200 s before `sampleEnv.nowMs`. -/
def sampleRateContext : EscalationContext :=
  ⟨⟨"permission_prompt", "/home/user/myproj"⟩, "please approve",
   none, some 999800000, 0⟩

/-- Witness for `checkRateLimits_correct`: with a 300 s minimum interval
and a call 200 s ago, evaluation is blocked with a 100 s wait. -/
theorem checkRateLimits_correct_witness :
    evaluate sampleEvaluator sampleEnv sampleRateContext =
      ⟨false, "Rate limit: must wait 100s before next call", none, none⟩ :=
  (checkRateLimits_correct sampleEvaluator sampleEnv sampleRateContext
    (by decide) (by decide) (by decide)).1 999800000 rfl (by decide) (by decide)

lemma startsWithChars_self_append (n b : List Char) :
    startsWithChars n (n ++ b) = true := by
  induction n with
  | nil => simp [startsWithChars]
  | cons c cs ih => simp [startsWithChars, ih]

lemma hasSubChars_nil (hay : List Char) : hasSubChars [] hay = true := by
  induction hay with
  | nil => simp [hasSubChars, startsWithChars]
  | cons c cs ih => simp [hasSubChars, startsWithChars]

lemma hasSubChars_append (n a b : List Char) :
    hasSubChars n (a ++ (n ++ b)) = true := by
  induction a with
  | nil =>
    have hs := startsWithChars_self_append n b
    cases n with
    | nil => exact hasSubChars_nil b
    | cons c cs => simpa [hasSubChars] using Or.inl hs
  | cons x xs ih => simp [hasSubChars, ih]

lemma jsIncludes_data (hay mid : String) (a b : List Char)
    (hd : hay.data = a ++ (mid.data ++ b)) : jsIncludes hay mid = true := by
  unfold jsIncludes
  rw [hd]
  exact hasSubChars_append mid.data a b

/-- C10 (amended): when arbitration runs, the prompt sent to the judge
carries the event type, the project label and the content; a thrown judge
call yields a no-escalate result; a brace-delimited candidate that parses
decides via `shouldCall === true`; a candidate that fails to parse falls
back to keyword scanning of the lowercased reply; and a reply with no
brace-delimited candidate at all yields `shouldEscalate = false` without
any keyword scanning. -/
theorem evaluateWithLLM_behaviour (ev : EscalationEvaluator) (env : EvalEnv)
    (context : EscalationContext) (hprov : ev.hasLlmProvider = true) :
    (env.llmAnalyze (llmPromptFor ev.config context) = Except.error () →
      evaluateWithLLM ev env context = ⟨false, "LLM evaluation failed", none, none⟩)
    ∧ (∀ resp cand parsed,
        env.llmAnalyze (llmPromptFor ev.config context) = Except.ok (some resp) →
        extractBraces resp = some cand → env.jsonParse cand = some parsed →
        (evaluateWithLLM ev env context).shouldEscalate = parsed.shouldCallIsTrue)
    ∧ (∀ resp cand,
        env.llmAnalyze (llmPromptFor ev.config context) = Except.ok (some resp) →
        extractBraces resp = some cand → env.jsonParse cand = none →
        (evaluateWithLLM ev env context).shouldEscalate =
          (jsIncludes (jsToLower resp) "yes" || jsIncludes (jsToLower resp) "call" ||
           jsIncludes (jsToLower resp) "true"))
    ∧ (∀ resp,
        env.llmAnalyze (llmPromptFor ev.config context) = Except.ok (some resp) →
        extractBraces resp = none →
        evaluateWithLLM ev env context = ⟨false, "LLM: LLM decision", none, none⟩)
    ∧ (jsIncludes (llmPromptFor ev.config context)
        ("\nContent: " ++ context.eventContent) = true
      ∧ jsIncludes (llmPromptFor ev.config context)
        ("\n\nEvent type: " ++ context.event.event_type) = true
      ∧ jsIncludes (llmPromptFor ev.config context)
        ("\nProject: " ++ jsProjectLabel context.event.cwd) = true)
    ∧ (ev.config.triggers.useLlmForEscalation = true →
      ev.config.enabled = true →
      isEventTypeEligible ev.config context.event.event_type = true →
      isQuietHours ev.config.quietHours env.currentMinutes = false →
      (checkRateLimits ev.config env.nowMs context).allowed = true →
      matchesAlwaysCallPatterns ev.compiledAlwaysCallPatterns
        context.eventContent = false →
      context.notificationSentAt = none →
      evaluate ev env context = evaluateWithLLM ev env context) := by
  refine ⟨?_, ?_, ?_, ?_, ⟨?_, ?_, ?_⟩, ?_⟩
  · intro herr
    simp [evaluateWithLLM, hprov, herr]
  · intro resp cand parsed hok hex hparse
    simp [evaluateWithLLM, hprov, hok, hex, hparse]
  · intro resp cand hok hex hparse
    simp [evaluateWithLLM, hprov, hok, hex, hparse]
  · intro resp hok hex
    simp [evaluateWithLLM, hprov, hok, hex]
  · exact jsIncludes_data _ _
      ((ev.config.triggers.llmEscalationPrompt.getD "").data ++
        "\n\nEvent type: ".data ++ context.event.event_type.data ++
        "\nProject: ".data ++ (jsProjectLabel context.event.cwd).data) []
      (by simp [llmPromptFor])
  · exact jsIncludes_data _ _
      ((ev.config.triggers.llmEscalationPrompt.getD "").data)
      ("\nProject: ".data ++ (jsProjectLabel context.event.cwd).data ++
        "\nContent: ".data ++ context.eventContent.data)
      (by simp [llmPromptFor])
  · exact jsIncludes_data _ _
      ((ev.config.triggers.llmEscalationPrompt.getD "").data ++
        "\n\nEvent type: ".data ++ context.event.event_type.data)
      ("\nContent: ".data ++ context.eventContent.data)
      (by simp [llmPromptFor])
  · intro huse hen hel hq hr hm hn
    simp [evaluate, hen, hel, hq, hr, hm, hn, huse, hprov]

/-- An environment whose judge replies the bare keyword "yes" with no JSON
object in the reply. -/
def yesReplyEnv : EvalEnv :=
  ⟨1000000000, 720, fun _ => Except.ok (some "yes"), fun _ => none⟩

/-- Witness for `evaluateWithLLM_behaviour`: a thrown judge call declines
to escalate. -/
theorem evaluateWithLLM_behaviour_witness :
    evaluateWithLLM sampleEvaluator sampleEnv sampleContext =
      ⟨false, "LLM evaluation failed", none, none⟩ :=
  (evaluateWithLLM_behaviour sampleEvaluator sampleEnv sampleContext rfl).1 rfl

/-- C10 counterexample: the judge replies the bare word "yes", which
contains no brace-delimited JSON candidate, so structured parsing yields
no decision; the code returns `shouldEscalate = false` without the keyword
fallback, although the lowercased reply contains the keyword "yes". -/
theorem evaluateWithLLM_no_json_no_fallback :
    evaluateWithLLM sampleEvaluator yesReplyEnv sampleContext =
      ⟨false, "LLM: LLM decision", none, none⟩
    ∧ extractBraces "yes" = none
    ∧ jsIncludes (jsToLower "yes") "yes" = true := by
  refine ⟨by decide, by decide, by decide⟩

/-! ## Webhook Security (webhook-security.ts) -/

/-- The accumulator loop of `validateWebSocketToken`:
`result |= expected.charCodeAt(i) ^ received.charCodeAt(i)` over every
index, starting from 0, never exiting early. -/
def tokenCompareFold (expected received : List Char) : Nat :=
  (expected.zip received).foldl
    (fun result p => result ||| (p.1.toNat ^^^ p.2.toNat)) 0

/-- `validateWebSocketToken` from `webhook-security.ts`: a missing token
or a length mismatch is `false`; otherwise the OR-accumulated XOR of all
character codes must be 0. -/
def validateWebSocketToken (expectedToken : String)
    (receivedToken : Option String) : Bool :=
  match receivedToken with
  | none => false
  | some received =>
    if expectedToken.length ≠ received.length then false
    else decide (tokenCompareFold expectedToken.data received.data = 0)

lemma char_toNat_inj {a b : Char} (h : a.toNat = b.toNat) : a = b :=
  Char.ext (UInt32.toNat.inj h)

lemma nat_or_eq_zero {a b : Nat} : (a ||| b) = 0 ↔ a = 0 ∧ b = 0 := by
  constructor
  · intro h
    have hb : ∀ i, a.testBit i = false ∧ b.testBit i = false := by
      intro i
      have hc := congrArg (fun n => n.testBit i) h
      simpa [Nat.testBit_or] using hc
    exact ⟨Nat.eq_of_testBit_eq fun i => by simp [(hb i).1],
           Nat.eq_of_testBit_eq fun i => by simp [(hb i).2]⟩
  · rintro ⟨rfl, rfl⟩
    rfl

lemma tokenCompareFold_aux (l : List (Char × Char)) (acc : Nat) :
    (l.foldl (fun result p => result ||| (p.1.toNat ^^^ p.2.toNat)) acc = 0 ↔
      acc = 0 ∧ ∀ p ∈ l, p.1 = p.2) := by
  induction l generalizing acc with
  | nil => simp
  | cons x xs ih =>
    simp only [List.foldl_cons, ih, List.mem_cons]
    constructor
    · rintro ⟨hor, hall⟩
      rcases nat_or_eq_zero.mp hor with ⟨ha, hx⟩
      have hx' : x.1 = x.2 := char_toNat_inj (Nat.xor_eq_zero.mp hx)
      exact ⟨ha, fun p hp => hp.elim (fun e => e ▸ hx') (hall p)⟩
    · rintro ⟨ha, hall⟩
      refine ⟨nat_or_eq_zero.mpr ⟨ha, ?_⟩, fun p hp => hall p (Or.inr hp)⟩
      have hx := hall x (Or.inl rfl)
      simp [hx]

lemma eq_of_zip_pointwise : ∀ (l1 l2 : List Char), l1.length = l2.length →
    (∀ p ∈ l1.zip l2, p.1 = p.2) → l1 = l2 := by
  intro l1
  induction l1 with
  | nil =>
    intro l2 h _
    cases l2 with
    | nil => rfl
    | cons y ys => simp at h
  | cons x xs ih =>
    intro l2 h hp
    cases l2 with
    | nil => simp at h
    | cons y ys =>
      have hx : x = y := hp (x, y) (by simp)
      have hxs := ih ys (by simpa using h) (fun p hp' => hp p (by simp [hp']))
      simp [hx, hxs]

lemma zip_self_pointwise (l : List Char) : ∀ p ∈ l.zip l, p.1 = p.2 := by
  induction l with
  | nil => simp
  | cons x xs ih =>
    intro p hp
    rcases (by simpa using hp : p = (x, x) ∨ p ∈ xs.zip xs) with h | h
    · simp [h]
    · exact ih p h

/-- C5: `validateWebSocketToken` is `true` exactly when a token was
received and equals the expected one character for character (so a missing
token, any single differing character, or a length mismatch yields
`false`, never an error); for equal lengths the verdict is the
OR-accumulated comparison of every character position of the two tokens. -/
theorem validateWebSocketToken_correct (expectedToken : String)
    (receivedToken : Option String) :
    (validateWebSocketToken expectedToken receivedToken = true ↔
      receivedToken = some expectedToken)
    ∧ (∀ received : String, expectedToken.length = received.length →
        (validateWebSocketToken expectedToken (some received) = true ↔
          ∀ p ∈ expectedToken.data.zip received.data, p.1 = p.2)) := by
  have core : ∀ received : String, expectedToken.length = received.length →
      (validateWebSocketToken expectedToken (some received) = true ↔
        ∀ p ∈ expectedToken.data.zip received.data, p.1 = p.2) := by
    intro received hl
    simp only [validateWebSocketToken, hl, ne_eq, not_true_eq_false, if_false,
      decide_eq_true_eq, tokenCompareFold, tokenCompareFold_aux]
    simp
  constructor
  · cases receivedToken with
    | none => simp [validateWebSocketToken]
    | some received =>
      by_cases hl : expectedToken.length = received.length
      · rw [core received hl]
        constructor
        · intro hall
          have hd : expectedToken.data = received.data :=
            eq_of_zip_pointwise _ _ hl hall
          rw [String.ext hd]
        · intro hsome
          have hre : received = expectedToken := Option.some.inj hsome
          subst hre
          exact zip_self_pointwise _
      · have hne : received ≠ expectedToken := by
          intro he
          exact hl (he ▸ rfl)
        simp only [validateWebSocketToken, hl, ne_eq, not_false_eq_true, if_true,
          Option.some.injEq]
        exact iff_of_false (by simp) hne
  · exact core

/-- Witness for `validateWebSocketToken_correct`: equal tokens compare
true, a one-character difference compares false. -/
theorem validateWebSocketToken_correct_witness :
    validateWebSocketToken "tok-abc" (some "tok-abc") = true
    ∧ validateWebSocketToken "tok-abc" (some "tok-abd") ≠ true
    ∧ validateWebSocketToken "tok-abc" (some "tok-ab") ≠ true
    ∧ validateWebSocketToken "tok-abc" none ≠ true :=
  ⟨(validateWebSocketToken_correct "tok-abc" (some "tok-abc")).1.mpr rfl,
   fun h => by
    have := (validateWebSocketToken_correct "tok-abc" (some "tok-abd")).1.mp h
    simp at this,
   fun h => by
    have := (validateWebSocketToken_correct "tok-abc" (some "tok-ab")).1.mp h
    simp at this,
   fun h => by
    have := (validateWebSocketToken_correct "tok-abc" none).1.mp h
    simp at this⟩

/-- JavaScript truthiness of an optional string header (`!signature`):
absent or empty is falsy. -/
def jsTruthyStr : Option String → Bool
  | none => false
  | some s => !(s == "")

/-- JavaScript `parseInt(s, 10)` for the non-negative decimal timestamps
the provider sends: value of the leading digit run, NaN (`none`) when
there is none. -/
def parseIntPrefix (s : String) : Option Nat :=
  let ds := s.data.takeWhile (fun c => c.isDigit)
  if ds.isEmpty then none else some (digitsToNat ds)

/-- `validateTelnyxSignature` from `webhook-security.ts`.  `edVerify`
abstracts `crypto.verify` on (public key, signed payload, signature),
with a thrown exception folded into `false` like the source's catch; a
non-numeric timestamp makes the NaN window comparison false, so
verification still runs, exactly as in the source. -/
def validateTelnyxSignature (edVerify : String → String → String → Bool)
    (publicKey : String) (signature timestamp : Option String)
    (body : String) (nowMs : Int) : Bool :=
  if !(jsTruthyStr signature) || !(jsTruthyStr timestamp) then false
  else
    let ts := timestamp.getD ""
    let sig := signature.getD ""
    match parseIntPrefix ts with
    | some t =>
      if 300000 < |nowMs - (t : Int) * 1000| then false
      else edVerify publicKey (ts ++ "|" ++ body) sig
    | none => edVerify publicKey (ts ++ "|" ++ body) sig

/-! ## Call Manager state (tts-openai.ts, CallManager) -/

/-- Lookup in a JavaScript `Map` modelled as an association list. -/
def mapGet {β : Type} : List (String × β) → String → Option β
  | [], _ => none
  | (k, v) :: rest, key => if k = key then some v else mapGet rest key

/-- `Map.set`: replace in place when the key exists, else append. -/
def mapSet {β : Type} : List (String × β) → String → β → List (String × β)
  | [], key, val => [(key, val)]
  | (k, v) :: rest, key, val =>
    if k = key then (key, val) :: rest else (k, v) :: mapSet rest key val

/-- Mutate the value under a key when present (`map.get` followed by field
assignments on the live object). -/
def mapUpdate {β : Type} (l : List (String × β)) (key : String) (f : β → β) :
    List (String × β) :=
  match mapGet l key with
  | some v => mapSet l key (f v)
  | none => l

/-- `Map.delete`. -/
def mapDelete {β : Type} : List (String × β) → String → List (String × β)
  | [], _ => []
  | (k, v) :: rest, key =>
    if k = key then mapDelete rest key else (k, v) :: mapDelete rest key

/-- The fields of a `CallState` that the webhook handlers and
`initiateCall` touch; the socket and speech session are reduced to the
identifiers and flags the code reads. -/
structure CallRec where
  callControlId : Option String
  streamSid : Option String
  streamingReady : Bool
  wsToken : String
  hungUp : Bool
  wsClosed : Bool
  sttSessionId : Option Nat
deriving DecidableEq, Repr

/-- The `CallManager` maps: active calls, call-control-id routing,
socket-token routing, plus the set of open speech-recognition sessions. -/
structure CMState where
  activeCalls : List (String × CallRec)
  callControlIdToCallId : List (String × String)
  wsTokenToCallId : List (String × String)
  openSttSessions : List Nat
deriving DecidableEq, Repr

/-- The fields of a parsed Telnyx webhook body that
`handleTelnyxWebhook` reads. -/
structure TelnyxEvent where
  eventType : Option String
  callControlId : Option String

/-- `handleTelnyxWebhook` from `tts-openai.ts`, restricted to its state
mutations: `call.hangup` drops the call-control route and marks the call
hung up with its socket closed; `streaming.started` flips the ready flag;
`call.initiated`, `call.answered` (whose `startStreaming` call is an
outbound provider effect) and unknown events change no state. -/
def handleTelnyxWebhook (ev : TelnyxEvent) (s : CMState) : CMState :=
  match ev.callControlId with
  | none => s
  | some callControlId =>
    match ev.eventType with
    | some et =>
      if et = "call.hangup" then
        match mapGet s.callControlIdToCallId callControlId with
        | some hangupCallId =>
          { s with
            callControlIdToCallId := mapDelete s.callControlIdToCallId callControlId,
            activeCalls := mapUpdate s.activeCalls hangupCallId
              (fun r => { r with hungUp := true, wsClosed := true }) }
        | none => s
      else if et = "streaming.started" then
        match mapGet s.callControlIdToCallId callControlId with
        | some streamCallId =>
          { s with
            activeCalls := mapUpdate s.activeCalls streamCallId
              (fun r => { r with streamingReady := true }) }
        | none => s
      else s
    | none => s

/-- Outcome of one webhook request: HTTP status written, and whether the
missing-key warning was logged. -/
structure WebhookResult where
  status : Nat
  warnedNoKey : Bool
deriving DecidableEq, Repr

/-- `handlePhoneWebhook` from `tts-openai.ts` for a JSON request: when a
public key is configured the signature is validated before anything else,
a failure answering 401 with no state change; `JSON.parse` (abstracted as
`parseBody`) failing answers 400; otherwise the event is dispatched.  With
no configured key a warning is logged and processing proceeds. -/
def handlePhoneWebhook (edVerify : String → String → String → Bool)
    (telnyxPublicKey : Option String) (signature timestamp : Option String)
    (body : String) (nowMs : Int) (parseBody : String → Option TelnyxEvent)
    (s : CMState) : WebhookResult × CMState :=
  if jsTruthyStr telnyxPublicKey then
    if !(validateTelnyxSignature edVerify (telnyxPublicKey.getD "")
        signature timestamp body nowMs) then
      (⟨401, false⟩, s)
    else
      match parseBody body with
      | none => (⟨400, false⟩, s)
      | some ev => (⟨200, false⟩, handleTelnyxWebhook ev s)
  else
    match parseBody body with
    | none => (⟨400, true⟩, s)
    | some ev => (⟨200, true⟩, handleTelnyxWebhook ev s)

/-- C6: with a configured public key, a request whose signature or
timestamp header is missing or empty, whose numeric timestamp is more than
5 minutes from local time, or whose Ed25519 verification fails, fails
validation, and every validation failure is answered 401 with the call
state untouched; with no configured key the warning is logged and
processing proceeds to parsing and dispatch. -/
theorem webhook_auth_rejects (edVerify : String → String → String → Bool)
    (pk : Option String) (sig ts : Option String) (body : String)
    (nowMs : Int) (parseBody : String → Option TelnyxEvent) (s : CMState) :
    (jsTruthyStr pk = true →
      validateTelnyxSignature edVerify (pk.getD "") sig ts body nowMs = false →
      handlePhoneWebhook edVerify pk sig ts body nowMs parseBody s = (⟨401, false⟩, s))
    ∧ (jsTruthyStr sig = false ∨ jsTruthyStr ts = false →
      validateTelnyxSignature edVerify (pk.getD "") sig ts body nowMs = false)
    ∧ (∀ t, parseIntPrefix (ts.getD "") = some t →
      300000 < |nowMs - (t : Int) * 1000| →
      validateTelnyxSignature edVerify (pk.getD "") sig ts body nowMs = false)
    ∧ (∀ t, parseIntPrefix (ts.getD "") = some t →
      ¬(300000 < |nowMs - (t : Int) * 1000|) →
      edVerify (pk.getD "") ((ts.getD "") ++ "|" ++ body) (sig.getD "") = false →
      validateTelnyxSignature edVerify (pk.getD "") sig ts body nowMs = false)
    ∧ (jsTruthyStr pk = false →
      (handlePhoneWebhook edVerify pk sig ts body nowMs parseBody s).1.warnedNoKey = true
      ∧ ((handlePhoneWebhook edVerify pk sig ts body nowMs parseBody s).1.status = 400
        ∨ (handlePhoneWebhook edVerify pk sig ts body nowMs parseBody s).1.status = 200)) := by
  refine ⟨?_, ?_, ?_, ?_, ?_⟩
  · intro hk hv
    simp [handlePhoneWebhook, hk, hv]
  · intro hmiss
    rcases hmiss with h | h <;> simp [validateTelnyxSignature, h]
  · intro t hparse hwin
    by_cases hs : jsTruthyStr sig = true
    · by_cases ht : jsTruthyStr ts = true
      · simp [validateTelnyxSignature, hs, ht, hparse, hwin]
      · simp only [Bool.not_eq_true] at ht
        simp [validateTelnyxSignature, ht]
    · simp only [Bool.not_eq_true] at hs
      simp [validateTelnyxSignature, hs]
  · intro t hparse hwin hed
    by_cases hs : jsTruthyStr sig = true
    · by_cases ht : jsTruthyStr ts = true
      · simp [validateTelnyxSignature, hs, ht, hparse, hwin, hed]
      · simp only [Bool.not_eq_true] at ht
        simp [validateTelnyxSignature, ht]
    · simp only [Bool.not_eq_true] at hs
      simp [validateTelnyxSignature, hs]
  · intro hk
    unfold handlePhoneWebhook
    rw [hk]
    cases hp : parseBody body <;> simp

/-- Witness for `webhook_auth_rejects`: a failing verifier with present
headers and an in-window timestamp is answered 401 on an empty state. -/
theorem webhook_auth_rejects_witness :
    handlePhoneWebhook (fun _ _ _ => false) (some "PUBKEY") (some "sigbytes")
      (some "1000000") "payload" 1000000500 (fun _ => none) ⟨[], [], [], []⟩
      = (⟨401, false⟩, ⟨[], [], [], []⟩) :=
  (webhook_auth_rejects (fun _ _ _ => false) (some "PUBKEY") (some "sigbytes")
    (some "1000000") "payload" 1000000500 (fun _ => none) ⟨[], [], [], []⟩).1
    (by decide)
    ((webhook_auth_rejects (fun _ _ _ => false) (some "PUBKEY") (some "sigbytes")
      (some "1000000") "payload" 1000000500 (fun _ => none) ⟨[], [], [], []⟩).2.2.2.1
      1000000 (by decide) (by decide) rfl)

lemma mapGet_mapSet_self {β : Type} (l : List (String × β)) (k : String) (v : β) :
    mapGet (mapSet l k v) k = some v := by
  induction l with
  | nil => simp [mapSet, mapGet]
  | cons kv rest ih =>
    by_cases h : kv.1 = k
    · simp [mapSet, mapGet, h]
    · simp [mapSet, mapGet, h, ih]

lemma mapGet_mapSet_ne {β : Type} (l : List (String × β)) (k k' : String) (v : β)
    (h : k ≠ k') : mapGet (mapSet l k v) k' = mapGet l k' := by
  induction l with
  | nil => simp [mapSet, mapGet, h]
  | cons kv rest ih =>
    by_cases hk : kv.1 = k
    · simp [mapSet, mapGet, hk, h]
    · by_cases hk' : kv.1 = k'
      · simp [mapSet, mapGet, hk, hk', Ne.symm h]
      · simp [mapSet, mapGet, hk, hk', ih]

lemma mapGet_mapDelete_self {β : Type} (l : List (String × β)) (k : String) :
    mapGet (mapDelete l k) k = none := by
  induction l with
  | nil => simp [mapDelete, mapGet]
  | cons kv rest ih =>
    by_cases h : kv.1 = k
    · simp [mapDelete, h, ih]
    · simp [mapDelete, mapGet, h, ih]

lemma mapGet_mapDelete_ne {β : Type} (l : List (String × β)) (k k' : String)
    (h : k ≠ k') : mapGet (mapDelete l k) k' = mapGet l k' := by
  induction l with
  | nil => simp [mapDelete]
  | cons kv rest ih =>
    by_cases hk : kv.1 = k
    · have hk' : kv.1 ≠ k' := by rw [hk]; exact h
      simp [mapDelete, mapGet, hk, hk', h, ih]
    · by_cases hk' : kv.1 = k'
      · simp [mapDelete, mapGet, hk, hk', Ne.symm h]
      · simp [mapDelete, mapGet, hk, hk', ih]

lemma mapGet_mapUpdate_self {β : Type} (l : List (String × β)) (k : String)
    (f : β → β) : mapGet (mapUpdate l k f) k = (mapGet l k).map f := by
  unfold mapUpdate
  cases h : mapGet l k with
  | none => simp [h]
  | some v => simp [mapGet_mapSet_self]

/-! ## Session Tracker (session-tracker.ts) -/

/-- `TmuxContext` from `types.ts`. -/
structure TmuxContext where
  session : String
  window : String
  pane : String
deriving DecidableEq, Repr

/-- `SessionMapping` from `session-tracker.ts`. -/
structure SessionMapping where
  callId : String
  tmuxContext : TmuxContext
  eventId : String
  cwd : String
  project : String
  startedAt : Int
  eventType : String
  eventContent : Option String
deriving DecidableEq, Repr

/-- The two maps of `SessionTracker`. -/
structure SessionTracker where
  callToSession : List (String × SessionMapping)
  sessionToCall : List (String × String)
deriving DecidableEq, Repr

/-- `getSessionKey`: the colon-joined composite key of a terminal target. -/
def getSessionKey (context : TmuxContext) : String :=
  context.session ++ ":" ++ context.window ++ ":" ++ context.pane

/-- `registerCall` from `session-tracker.ts` (`Date.now()` supplied as
`nowMs`). -/
def registerCall (st : SessionTracker) (callId : String)
    (tmuxContext : TmuxContext) (eventId cwd eventType : String)
    (eventContent : Option String) (nowMs : Int) : SessionTracker :=
  let sessionKey := getSessionKey tmuxContext
  let project := jsProjectLabel cwd
  let mapping : SessionMapping :=
    ⟨callId, tmuxContext, eventId, cwd, project, nowMs, eventType, eventContent⟩
  ⟨mapSet st.callToSession callId mapping,
   mapSet st.sessionToCall sessionKey callId⟩

/-- `getMapping` from `session-tracker.ts`. -/
def getMapping (st : SessionTracker) (callId : String) : Option SessionMapping :=
  mapGet st.callToSession callId

/-- `getCallIdForSession` from `session-tracker.ts`. -/
def getCallIdForSession (st : SessionTracker) (context : TmuxContext) : Option String :=
  mapGet st.sessionToCall (getSessionKey context)

/-- `hasActiveCall` from `session-tracker.ts`. -/
def hasActiveCall (st : SessionTracker) (context : TmuxContext) : Bool :=
  (mapGet st.sessionToCall (getSessionKey context)).isSome

/-- `removeCall` from `session-tracker.ts`: look the call's mapping up,
then delete its session key and the call entry. -/
def removeCall (st : SessionTracker) (callId : String) : SessionTracker :=
  match mapGet st.callToSession callId with
  | some mapping =>
    ⟨mapDelete st.callToSession callId,
     mapDelete st.sessionToCall (getSessionKey mapping.tmuxContext)⟩
  | none => st

/-- Mutual consistency of the two tracker maps: every session-key entry
points to a call whose stored mapping carries that key, and every stored
mapping's key routes back to its call. -/
def TrackerInv (st : SessionTracker) : Prop :=
  (∀ k c, mapGet st.sessionToCall k = some c →
    ∃ m, mapGet st.callToSession c = some m ∧ getSessionKey m.tmuxContext = k)
  ∧ (∀ c m, mapGet st.callToSession c = some m →
    mapGet st.sessionToCall (getSessionKey m.tmuxContext) = some c)

lemma split_at_colon : ∀ (a a' x x' : List Char),
    (':' : Char) ∉ a → (':' : Char) ∉ a' →
    a ++ ':' :: x = a' ++ ':' :: x' → a = a' ∧ x = x' := by
  intro a
  induction a with
  | nil =>
    intro a' x x' _ ha' h
    cases a' with
    | nil =>
      simp only [List.nil_append] at h
      exact ⟨rfl, by injection h⟩
    | cons y ys =>
      simp only [List.nil_append, List.cons_append] at h
      injection h with h1 h2
      exact absurd (h1 ▸ List.mem_cons_self y ys) ha'
  | cons z zs ih =>
    intro a' x x' ha ha' h
    cases a' with
    | nil =>
      simp only [List.nil_append, List.cons_append] at h
      injection h with h1 h2
      exact absurd (h1 ▸ List.mem_cons_self z zs) ha
    | cons y ys =>
      simp only [List.cons_append] at h
      injection h with h1 h2
      have hzs : (':' : Char) ∉ zs := fun hm => ha (List.mem_cons_of_mem _ hm)
      have hys : (':' : Char) ∉ ys := fun hm => ha' (List.mem_cons_of_mem _ hm)
      obtain ⟨he, hx⟩ := ih ys x x' hzs hys h2
      exact ⟨by rw [h1, he], hx⟩

lemma getSessionKey_inj (c1 c2 : TmuxContext)
    (h1s : (':' : Char) ∉ c1.session.data) (h1w : (':' : Char) ∉ c1.window.data)
    (h2s : (':' : Char) ∉ c2.session.data) (h2w : (':' : Char) ∉ c2.window.data)
    (h : getSessionKey c1 = getSessionKey c2) : c1 = c2 := by
  unfold getSessionKey at h
  have hd := congrArg String.data h
  have hcolon : (":" : String).data = [':'] := rfl
  simp only [String.data_append, hcolon, List.append_assoc,
    List.singleton_append] at hd
  obtain ⟨hs, rest⟩ := split_at_colon _ _ _ _ h1s h2s hd
  obtain ⟨hw, hp⟩ := split_at_colon _ _ _ _ h1w h2w rest
  cases c1 with
  | mk s1 w1 p1 =>
    cases c2 with
    | mk s2 w2 p2 =>
      simp only at hs hw hp
      rw [String.ext hs, String.ext hw, String.ext hp]

/-- C8 counterexample (to the claim as stated): the colon-joined session
key does not separate every pair of distinct targets — registering a call
for target (session "a", window "b:c", pane "d") makes `hasActiveCall`
true for the different target (session "a:b", window "c", pane "d"). -/
theorem sessionTracker_distinct_targets_collide :
    (⟨"a", "b:c", "d"⟩ : TmuxContext) ≠ (⟨"a:b", "c", "d"⟩ : TmuxContext)
    ∧ hasActiveCall ⟨[], []⟩ ⟨"a:b", "c", "d"⟩ = false
    ∧ hasActiveCall
        (registerCall ⟨[], []⟩ "call-1" ⟨"a", "b:c", "d"⟩ "evt-1" "/w/p"
          "permission_prompt" none 0)
        ⟨"a:b", "c", "d"⟩ = true := by
  refine ⟨by decide, by decide, by decide⟩

/-- C8 (amended): after `registerCall` the target reports an active call
routed to the registered id, and after `removeCall` it no longer does;
operations on one target do not affect any target with a different
composite key — in particular any two distinct targets whose session and
window contain no ':' have different keys; and the two maps stay mutually
consistent when a fresh call id is registered for an unoccupied target and
on every removal. -/
theorem sessionTracker_register_remove (st : SessionTracker) (callId : String)
    (ctx : TmuxContext) (eventId cwd eventType : String)
    (eventContent : Option String) (nowMs : Int) :
    (hasActiveCall (registerCall st callId ctx eventId cwd eventType eventContent nowMs)
      ctx = true)
    ∧ (getCallIdForSession
        (registerCall st callId ctx eventId cwd eventType eventContent nowMs) ctx
        = some callId)
    ∧ (hasActiveCall
        (removeCall (registerCall st callId ctx eventId cwd eventType eventContent nowMs)
          callId) ctx = false)
    ∧ (∀ ctx2, getSessionKey ctx ≠ getSessionKey ctx2 →
      hasActiveCall (registerCall st callId ctx eventId cwd eventType eventContent nowMs)
        ctx2 = hasActiveCall st ctx2
      ∧ getCallIdForSession
          (registerCall st callId ctx eventId cwd eventType eventContent nowMs) ctx2
          = getCallIdForSession st ctx2
      ∧ hasActiveCall
          (removeCall (registerCall st callId ctx eventId cwd eventType eventContent nowMs)
            callId) ctx2 = hasActiveCall st ctx2)
    ∧ (∀ c1 c2 : TmuxContext, (':' : Char) ∉ c1.session.data →
      (':' : Char) ∉ c1.window.data → (':' : Char) ∉ c2.session.data →
      (':' : Char) ∉ c2.window.data → c1 ≠ c2 →
      getSessionKey c1 ≠ getSessionKey c2)
    ∧ (mapGet st.callToSession callId = none →
      mapGet st.sessionToCall (getSessionKey ctx) = none → TrackerInv st →
      TrackerInv (registerCall st callId ctx eventId cwd eventType eventContent nowMs))
    ∧ (∀ (st' : SessionTracker) (c : String), TrackerInv st' →
      TrackerInv (removeCall st' c)) := by
  refine ⟨?_, ?_, ?_, ?_, ?_, ?_, ?_⟩
  · simp [hasActiveCall, registerCall, mapGet_mapSet_self]
  · simp [getCallIdForSession, registerCall, mapGet_mapSet_self]
  · simp only [removeCall, registerCall, mapGet_mapSet_self]
    simp [hasActiveCall, mapGet_mapDelete_self]
  · intro ctx2 hne
    refine ⟨?_, ?_, ?_⟩
    · simp [hasActiveCall, registerCall, mapGet_mapSet_ne _ _ _ _ hne]
    · simp [getCallIdForSession, registerCall, mapGet_mapSet_ne _ _ _ _ hne]
    · simp only [removeCall, registerCall, mapGet_mapSet_self]
      simp [hasActiveCall, mapGet_mapDelete_ne _ _ _ hne,
        mapGet_mapSet_ne _ _ _ _ hne]
  · intro c1 c2 h1s h1w h2s h2w hne hkey
    exact hne (getSessionKey_inj c1 c2 h1s h1w h2s h2w hkey)
  · intro hfresh hunocc hinv
    obtain ⟨inv1, inv2⟩ := hinv
    constructor
    · intro k c hk
      by_cases hkk : getSessionKey ctx = k
      · subst hkk
        rw [registerCall] at hk
        simp only [mapGet_mapSet_self] at hk
        obtain rfl : callId = c := by injection hk
        refine ⟨⟨callId, ctx, eventId, cwd, jsProjectLabel cwd, nowMs, eventType,
          eventContent⟩, ?_, rfl⟩
        simp [registerCall, mapGet_mapSet_self]
      · rw [registerCall] at hk
        simp only [mapGet_mapSet_ne _ _ _ _ hkk] at hk
        obtain ⟨m, hm, hmk⟩ := inv1 k c hk
        have hcne : callId ≠ c := by
          intro he
          rw [← he, hfresh] at hm
          exact Option.noConfusion hm
        refine ⟨m, ?_, hmk⟩
        simp [registerCall, mapGet_mapSet_ne _ _ _ _ hcne, hm]
    · intro c m hc
      by_cases hcc : callId = c
      · subst hcc
        rw [registerCall] at hc
        simp only [mapGet_mapSet_self] at hc
        obtain rfl : _ = m := by injection hc
        simp [registerCall, mapGet_mapSet_self]
      · rw [registerCall] at hc
        simp only [mapGet_mapSet_ne _ _ _ _ hcc] at hc
        have hold := inv2 c m hc
        have hkne : getSessionKey ctx ≠ getSessionKey m.tmuxContext := by
          intro he
          rw [← he, hunocc] at hold
          exact Option.noConfusion hold
        simp [registerCall, mapGet_mapSet_ne _ _ _ _ hkne, hold]
  · intro st' c hinv
    obtain ⟨inv1, inv2⟩ := hinv
    unfold removeCall
    cases hm : mapGet st'.callToSession c with
    | none => exact ⟨inv1, inv2⟩
    | some mapping =>
      constructor
      · intro k c' hk
        by_cases hkk : getSessionKey mapping.tmuxContext = k
        · rw [← hkk, mapGet_mapDelete_self] at hk
          exact Option.noConfusion hk
        · simp only [mapGet_mapDelete_ne _ _ _ hkk] at hk
          obtain ⟨m, hm', hmk⟩ := inv1 k c' hk
          have hcne : c ≠ c' := by
            intro he
            rw [← he, hm] at hm'
            obtain rfl : mapping = m := by injection hm'
            exact hkk hmk
          refine ⟨m, ?_, hmk⟩
          simpa [mapGet_mapDelete_ne _ _ _ hcne] using hm'
      · intro c' m hc'
        by_cases hcc : c = c'
        · rw [← hcc, mapGet_mapDelete_self] at hc'
          exact Option.noConfusion hc'
        · simp only [mapGet_mapDelete_ne _ _ _ hcc] at hc'
          have hold := inv2 c' m hc'
          have hkne : getSessionKey mapping.tmuxContext ≠ getSessionKey m.tmuxContext := by
            intro he
            have h2 := inv2 c mapping hm
            rw [he] at h2
            rw [h2] at hold
            exact hcc (by injection hold)
          simpa [mapGet_mapDelete_ne _ _ _ hkne] using hold

/-- Witness for `sessionTracker_register_remove` on a concrete tracker,
call and pair of colon-free targets. -/
theorem sessionTracker_register_remove_witness :
    hasActiveCall
      (registerCall ⟨[], []⟩ "call-1" ⟨"main", "1", "2"⟩ "evt-1" "/w/p"
        "permission_prompt" none 0) ⟨"main", "1", "2"⟩ = true
    ∧ getSessionKey ⟨"main", "1", "2"⟩ ≠ getSessionKey ⟨"other", "1", "2"⟩ :=
  ⟨(sessionTracker_register_remove ⟨[], []⟩ "call-1" ⟨"main", "1", "2"⟩ "evt-1"
      "/w/p" "permission_prompt" none 0).1,
   (sessionTracker_register_remove ⟨[], []⟩ "call-1" ⟨"main", "1", "2"⟩ "evt-1"
      "/w/p" "permission_prompt" none 0).2.2.2.2.1 ⟨"main", "1", "2"⟩
      ⟨"other", "1", "2"⟩ (by decide) (by decide) (by decide) (by decide)
      (by decide)⟩

/-! ## Call Manager: initiateCall failure paths (tts-openai.ts) -/

/-- Outcomes of the awaited collaborator calls inside one `initiateCall`
run: the phone provider's originate call, the TTS synthesis, the media
socket readiness (`ws` open and `streamSid`-or-`streamingReady`) at each
100 ms poll of `waitForConnection`, and the hung-up flag and transcript
that `listen` observes. -/
structure InitiateEnv where
  phoneInitiate : Except String String
  ttsAudio : Except String (List Nat)
  readyAt : Nat → Bool
  hungUpAtListen : Bool
  transcript : Except String String

/-- The poll loop of `waitForConnection`: with a 15000 ms budget and a
100 ms sleep per iteration, readiness is checked at 150 polls before the
timeout error is thrown. -/
def waitForConnectionLoop (readyAt : Nat → Bool) : Nat → Nat → Except String Unit
  | 0, _ => Except.error "WebSocket connection timeout"
  | fuel + 1, k => if readyAt k then Except.ok () else waitForConnectionLoop readyAt fuel (k + 1)

/-- `waitForConnection` from `tts-openai.ts` (timeout 15000 ms). -/
def waitForConnection (readyAt : Nat → Bool) : Except String Unit :=
  waitForConnectionLoop readyAt 150 0

/-- `listen` from `tts-openai.ts` (named `listenStep` here because `listen`
collides with the monad-writer method): the transcript future raced
against the hangup poll; whichever resolves, a set hung-up flag at the
check throws the hangup error. -/
def listenStep (hungUp : Bool) (transcript : Except String String) : Except String String :=
  if hungUp then Except.error "Call was hung up by user" else transcript

/-- `initiateCall` from `tts-openai.ts`: open the speech session, store the
fresh `CallState`, then try originate / wait-for-connection / TTS / send /
listen; the catch closes the speech session, removes the call from the
active map and rethrows.  The conversation-history push on the success
path only touches the returned record's history, which no claim reads. -/
def initiateCall (env : InitiateEnv) (callId : String) (sttSessionId : Nat)
    (wsToken message : String) (s : CMState) :
    Except String (String × String) × CMState :=
  let s1 : CMState := { s with openSttSessions := sttSessionId :: s.openSttSessions }
  let rec0 : CallRec := ⟨none, none, false, wsToken, false, false, some sttSessionId⟩
  let s2 : CMState := { s1 with activeCalls := mapSet s1.activeCalls callId rec0 }
  let fail : String → CMState → Except String (String × String) × CMState :=
    fun e st =>
      (Except.error e,
       { st with
         openSttSessions := st.openSttSessions.filter (fun i => !(i == sttSessionId)),
         activeCalls := mapDelete st.activeCalls callId })
  match env.phoneInitiate with
  | Except.error e => fail e s2
  | Except.ok callControlId =>
    let s3 : CMState :=
      { s2 with
        activeCalls := mapUpdate s2.activeCalls callId
          (fun r => { r with callControlId := some callControlId }),
        callControlIdToCallId := mapSet s2.callControlIdToCallId callControlId callId,
        wsTokenToCallId := mapSet s2.wsTokenToCallId wsToken callId }
    match waitForConnection env.readyAt with
    | Except.error e => fail e s3
    | Except.ok _ =>
      match env.ttsAudio with
      | Except.error e => fail e s3
      | Except.ok _audioData =>
        match listenStep env.hungUpAtListen env.transcript with
        | Except.error e => fail e s3
        | Except.ok response => (Except.ok (callId, response), s3)

lemma waitForConnectionLoop_never (readyAt : Nat → Bool)
    (h : ∀ k, readyAt k = false) :
    ∀ fuel k0, waitForConnectionLoop readyAt fuel k0 =
      Except.error "WebSocket connection timeout" := by
  intro fuel
  induction fuel with
  | zero => intro k0; rfl
  | succ n ih =>
    intro k0
    simp [waitForConnectionLoop, h k0, ih]

lemma not_mem_filter_self (l : List Nat) (x : Nat) :
    x ∉ l.filter (fun i => !(i == x)) := by
  intro hm
  have := List.of_mem_filter hm
  simp at this

/-- C9: if the media socket is never simultaneously open and stream-ready
at any poll within the connection budget, `initiateCall` throws the
connection-timeout error; if the call is hung up before an utterance is
captured, it throws the hangup error; and on every error outcome the
call's resources are released before the error propagates: the
speech-recognition session is no longer open and the call id is no longer
in the active-call map. -/
theorem initiateCall_failure_releases (env : InitiateEnv) (callId : String)
    (sttSessionId : Nat) (wsToken message : String) (s : CMState) :
    ((∀ k, env.readyAt k = false) → ∀ ccid, env.phoneInitiate = Except.ok ccid →
      (initiateCall env callId sttSessionId wsToken message s).1 =
        Except.error "WebSocket connection timeout")
    ∧ (env.hungUpAtListen = true → ∀ ccid audio,
      env.phoneInitiate = Except.ok ccid →
      waitForConnection env.readyAt = Except.ok () →
      env.ttsAudio = Except.ok audio →
      (initiateCall env callId sttSessionId wsToken message s).1 =
        Except.error "Call was hung up by user")
    ∧ (∀ e, (initiateCall env callId sttSessionId wsToken message s).1 =
        Except.error e →
      mapGet (initiateCall env callId sttSessionId wsToken message s).2.activeCalls
        callId = none
      ∧ sttSessionId ∉
        (initiateCall env callId sttSessionId wsToken message s).2.openSttSessions) := by
  refine ⟨?_, ?_, ?_⟩
  · intro hnever ccid hphone
    have hwait : waitForConnection env.readyAt =
        Except.error "WebSocket connection timeout" :=
      waitForConnectionLoop_never env.readyAt hnever 150 0
    simp [initiateCall, hphone, hwait]
  · intro hhang ccid audio hphone hwait htts
    simp [initiateCall, hphone, hwait, htts, listenStep, hhang]
  · intro e herr
    unfold initiateCall at herr ⊢
    cases hphone : env.phoneInitiate with
    | error e' =>
      simp [hphone, mapGet_mapDelete_self, not_mem_filter_self]
    | ok ccid =>
      cases hwait : waitForConnection env.readyAt with
      | error e' =>
        simp [hphone, hwait, mapGet_mapDelete_self, not_mem_filter_self]
      | ok u =>
        cases htts : env.ttsAudio with
        | error e' =>
          simp [hphone, hwait, htts, mapGet_mapDelete_self, not_mem_filter_self]
        | ok audio =>
          cases hlisten : listenStep env.hungUpAtListen env.transcript with
          | error e' =>
            simp [hphone, hwait, htts, hlisten, mapGet_mapDelete_self,
              not_mem_filter_self]
          | ok response =>
            rw [hphone, hwait, htts, hlisten] at herr
            simp at herr

/-- Witness for `initiateCall_failure_releases`: a run whose socket never
becomes ready times out and leaves neither an active call nor an open
speech session. -/
theorem initiateCall_failure_releases_witness :
    (initiateCall ⟨Except.ok "cc-1", Except.ok [255], fun _ => false, false,
        Except.ok "hi"⟩ "call-1" 7 "tok" "hello" ⟨[], [], [], []⟩).1 =
      Except.error "WebSocket connection timeout"
    ∧ mapGet (initiateCall ⟨Except.ok "cc-1", Except.ok [255], fun _ => false,
        false, Except.ok "hi"⟩ "call-1" 7 "tok" "hello"
        ⟨[], [], [], []⟩).2.activeCalls "call-1" = none
    ∧ (7 : Nat) ∉ (initiateCall ⟨Except.ok "cc-1", Except.ok [255],
        fun _ => false, false, Except.ok "hi"⟩ "call-1" 7 "tok" "hello"
        ⟨[], [], [], []⟩).2.openSttSessions := by
  have h1 := (initiateCall_failure_releases ⟨Except.ok "cc-1", Except.ok [255],
    fun _ => false, false, Except.ok "hi"⟩ "call-1" 7 "tok" "hello"
    ⟨[], [], [], []⟩).1 (fun _ => rfl) "cc-1" rfl
  have h3 := (initiateCall_failure_releases ⟨Except.ok "cc-1", Except.ok [255],
    fun _ => false, false, Except.ok "hi"⟩ "call-1" 7 "tok" "hello"
    ⟨[], [], [], []⟩).2.2 "WebSocket connection timeout" h1
  exact ⟨h1, h3.1, h3.2⟩
